import Mathlib

/-!
Verification development for the ABCD/ABCC motion-regressor generator
(`main.py` and `run.py`).  The Python code is shallowly embedded: file
contents are lists of text lines, the filesystem is an explicit finite map,
and the pandas `read_csv(..., sep='   ', header=None, skiprows=1,
engine='python')` call is modelled by its documented behaviour for the
python engine with a multi-character separator: every line is stripped of
leading and trailing whitespace and then split on each leftmost
non-overlapping occurrence of the exact three-space separator; blank rows
are dropped; the column count is taken from the first kept row; rows with
more fields raise a parser error; shorter rows are padded with missing
values.  Numeric conversion of cell values is not modelled: every claim
below concerns only column names, column order, row counts, file names and
error behaviour, never the numeric value of a cell.
-/

set_option maxRecDepth 100000

namespace MotionReg

/-! ### Python string primitives (exact substring split, replace, strip) -/

/-- Leftmost non-overlapping split of `s` on the exact pattern `pat`,
with `fuel` bounding recursion depth (callers pass `s.length`, which is
always sufficient).  Matches `re.split` for a pattern without
metacharacters, and Python `str.split(pat)`. -/
def splitSubAux (pat : List Char) : Nat → List Char → List (List Char)
  | 0, s => [s]
  | _ + 1, [] => [[]]
  | fuel + 1, c :: rest =>
    if !pat.isEmpty && pat.isPrefixOf (c :: rest) then
      [] :: splitSubAux pat fuel (List.drop pat.length (c :: rest))
    else
      match splitSubAux pat fuel rest with
      | [] => [[c]]
      | f :: fs => (c :: f) :: fs

/-- Interleave `sep` between the parts (inverse of splitting). -/
def joinSep (sep : List Char) : List (List Char) → List Char
  | [] => []
  | [x] => x
  | x :: y :: ys => x ++ sep ++ joinSep sep (y :: ys)

/-- Python `s.split(pat)` for a non-empty `pat`. -/
def pySplitOn (s pat : String) : List String :=
  (splitSubAux pat.data s.data.length s.data).map String.mk

/-- Python `s.replace(pat, rep)`: replaces every leftmost non-overlapping
occurrence (equivalently, split on `pat` and re-join with `rep`). -/
def pyReplace (s pat rep : String) : String :=
  String.mk (joinSep rep.data (splitSubAux pat.data s.data.length s.data))

/-- The whitespace characters relevant to the lines handled here. -/
def pyIsSpace (c : Char) : Bool :=
  c == ' ' || c == '\t' || c == '\n' || c == '\r'

/-- The three-space separator of `sep='   '`, as a character list. -/
def sp3 : List Char := [' ', ' ', ' ']

def stripL (l : List Char) : List Char :=
  ((l.dropWhile pyIsSpace).reverse.dropWhile pyIsSpace).reverse

/-- Python `s.strip()`. -/
def pyStrip (s : String) : String := String.mk (stripL s.data)

/-! ### Column mapping (main.py lines 30-43, run.py lines 67-80) -/

def column_mapping : List (String × String) :=
  [("trans_x_mm", "X"),
   ("trans_y_mm", "Y"),
   ("trans_z_mm", "Z"),
   ("rot_x_degrees", "RotX"),
   ("rot_y_degrees", "RotY"),
   ("rot_z_degrees", "RotZ"),
   ("trans_x_mm_dt", "XDt"),
   ("trans_y_mm_dt", "YDt"),
   ("trans_z_mm_dt", "ZDt"),
   ("rot_x_degrees_dt", "RotXDt"),
   ("rot_y_degrees_dt", "RotYDt"),
   ("rot_z_degrees_dt", "RotZDt")]

def required_cols : List String := column_mapping.map (fun p => p.1)

def short_names : List String := column_mapping.map (fun p => p.2)

/-- `rename(columns=column_mapping)` applied to one column label. -/
def renameCol (c : String) : String := (List.lookup c column_mapping).getD c

/-! ### Errors surfaced by `process_motion_tsv` -/

inductive PErr where
  | fileNotFound : PErr
  | emptyData : PErr
  | missingColumns (missing available : List String) : PErr
  | generic (msg : String) : PErr
deriving DecidableEq

def parser_error_msg : String := "Expected fields in line, saw more"

def length_mismatch_msg : String := "Length mismatch"

/-! ### The pandas read of the body (read_csv python engine, regex sep) -/

/-- One body line: stripped, then split on the exact three-space
separator (`sep='   '`, python engine). -/
def parseLine (l : String) : List String := pySplitOn (pyStrip l) "   "

/-- pandas python-engine blank-row removal: a split row is kept when it
has more than one field, or its single field is non-blank. -/
def keepRow : List String → Bool
  | [] => false
  | [f] => pyStrip f != ""
  | _ :: _ :: _ => true

def body_rows (bodyLines : List String) : List (List String) :=
  (bodyLines.map parseLine).filter keepRow

/-- Pad a short row up to the inferred column count (missing values). -/
def padRow (ncols : Nat) (r : List String) : List String :=
  r ++ List.replicate (ncols - r.length) "NaN"

/-- `pd.read_csv(path, sep='   ', header=None, skiprows=1,
engine='python')` applied to the lines after the header: the column count
is the first kept row's width, longer rows are a parser error, shorter
rows are padded, and no rows at all is `EmptyDataError`. -/
def read_csv_body (bodyLines : List String) :
    Except PErr (Nat × List (List String)) :=
  match body_rows bodyLines with
  | [] => .error .emptyData
  | r0 :: _ =>
    if (body_rows bodyLines).any (fun r => decide (r0.length < r.length)) then
      .error (.generic parser_error_msg)
    else
      .ok (r0.length, (body_rows bodyLines).map (padRow r0.length))

/-! ### process_motion_tsv (main.py lines 17-95, run.py lines 54-126) -/

/-- `headers = file.readline().strip().split('\t')`. -/
def detected_headers (lines : List String) : List String :=
  pySplitOn (pyStrip (lines.headD "")) "\t"

/-- `missing_cols = [col for col in required_cols if col not in df_split.columns]`. -/
def missing_cols_of (lines : List String) : List String :=
  required_cols.filter (fun c => !((detected_headers lines).contains c))

/-- A dataframe after selection: column labels plus rows of cells. -/
structure Table where
  header : List String
  rows : List (List String)
deriving DecidableEq

instance {ε α : Type} [DecidableEq ε] [DecidableEq α] :
    DecidableEq (Except ε α) := fun a b =>
  match a, b with
  | .ok x, .ok y =>
    if h : x = y then .isTrue (by rw [h]) else .isFalse (by simp [h])
  | .error e, .error f =>
    if h : e = f then .isTrue (by rw [h]) else .isFalse (by simp [h])
  | .ok _, .error _ => .isFalse (by simp)
  | .error _, .ok _ => .isFalse (by simp)

/-- Positions of the columns labelled `c` (pandas label indexing returns
every match, in order, so duplicate labels select duplicate columns). -/
def selIdx (headers : List String) (c : String) : List Nat :=
  ((headers.enum.filter (fun p => p.2 == c)).map (fun p => p.1))

/-- Header of `df_split[required_cols].rename(columns=column_mapping)`. -/
def selHeader (headers : List String) : List String :=
  (required_cols.map (fun c => (selIdx headers c).map (fun _ => renameCol c))).flatten

/-- One row of `df_split[required_cols]`. -/
def selRow (headers : List String) (row : List String) : List String :=
  ((required_cols.map (selIdx headers)).flatten).map (fun i => row.getD i "")

/-- The whole of `process_motion_tsv` on the lines of an existing input
file: read the tab-split header, reload the body with the three-space
separator, assign the header names as column labels (a length mismatch
raises and is caught by the generic handler), validate the required
columns, then select and rename.  The returned table is what
`to_csv(..., sep='\t', index=False)` writes on success. -/
def process_motion_tsv (lines : List String) : Except PErr Table :=
  match read_csv_body lines.tail with
  | .error e => .error e
  | .ok (ncols, rows) =>
    if (detected_headers lines).length ≠ ncols then
      .error (.generic length_mismatch_msg)
    else if (missing_cols_of lines).isEmpty then
      .ok ⟨selHeader (detected_headers lines),
           rows.map (selRow (detected_headers lines))⟩
    else
      .error (.missingColumns (missing_cols_of lines) (detected_headers lines))

/-- `to_csv(sep='\t', index=False)`: header line then one line per row. -/
def joinTab (cells : List String) : String :=
  String.mk (joinSep ['\t'] (cells.map String.data))

def to_csv (t : Table) : List String :=
  joinTab t.header :: t.rows.map joinTab

/-! ### Filesystem model and the per-run driver
(main.py `process_subject_session`, run.py `process_run`) -/

/-- A filesystem: the set of existing directories and a finite map from
file path to file content (a list of text lines).  Writing prepends, so
the newest version of a path shadows older ones. -/
structure FS where
  dirs : List String
  files : List (String × List String)
deriving DecidableEq

def FS.fileExists (fs : FS) (n : String) : Bool :=
  (List.lookup n fs.files).isSome

def FS.readFile (fs : FS) (n : String) : List String :=
  (List.lookup n fs.files).getD []

def FS.writeFile (fs : FS) (n : String) (c : List String) : FS :=
  ⟨fs.dirs, (n, c) :: fs.files⟩

def FS.dirExists (fs : FS) (n : String) : Bool := fs.dirs.contains n

/-- One entry of `file_patterns`. -/
structure FilePattern where
  input_suffix : String
  output_suffix : String
deriving DecidableEq

def pat1 : FilePattern :=
  ⟨"_desc-filteredincludingFD_motion.tsv", "_desc-filtered_motion.tsv"⟩

def pat2 : FilePattern :=
  ⟨"_desc-includingFD_motion.tsv", "_motion.tsv"⟩

def file_patterns : List FilePattern := [pat1, pat2]

/-- `new_run = run.replace('run-0', 'run-')`. -/
def new_run (run : String) : String := pyReplace run "run-0" "run-"

/-- `base_filename = f"{subject}_{session}_task-{task}"`. -/
def base_of (subject session task : String) : String :=
  subject ++ "_" ++ session ++ "_task-" ++ task

def input_path (dir base run : String) (p : FilePattern) : String :=
  dir ++ "/" ++ base ++ "_" ++ run ++ p.input_suffix

def output_path (dir base nrun : String) (p : FilePattern) : String :=
  dir ++ "/" ++ base ++ "_" ++ nrun ++ p.output_suffix

/-- The body of the per-pattern loop: skip when the input file is absent,
skip when the output file already exists, otherwise transform; a failed
transform writes nothing.  Returns the filesystem and whether the
success counter was incremented. -/
def processPattern (fs : FS) (dir base run nrun : String) (p : FilePattern) :
    FS × Bool :=
  if fs.fileExists (input_path dir base run p) = false then (fs, false)
  else if fs.fileExists (output_path dir base nrun p) = true then (fs, false)
  else
    match process_motion_tsv (fs.readFile (input_path dir base run p)) with
    | .ok t => (fs.writeFile (output_path dir base nrun p) (to_csv t), true)
    | .error _ => (fs, false)

/-- The loop over the two patterns (run.py `process_run`, and the loop of
main.py `process_subject_session`), returning the filesystem and
`processed_count`. -/
def process_run (fs : FS) (dir subject session task run : String) : FS × Nat :=
  let base := base_of subject session task
  let nr := new_run run
  let r1 := processPattern fs dir base run nr pat1
  let r2 := processPattern r1.1 dir base run nr pat2
  (r2.1, (cond r1.2 1 0) + (cond r2.2 1 0))

/-- main.py `process_subject_session`: build the func directory path,
return unchanged if it does not exist, else run the pattern loop. -/
def process_subject_session (fs : FS) (data_dir subject session task run : String) :
    FS × Nat :=
  let func_dir := data_dir ++ "/" ++ subject ++ "/" ++ session ++ "/func"
  if fs.dirExists func_dir = false then (fs, 0)
  else process_run fs func_dir subject session task run

/-! ### Derived runs (run.py `process_subject_session`, lines 153-165) -/

/-- `run_counts = img.shape[0] // 383`. -/
def run_counts (timepoints : Nat) : Nat := timepoints / 383

/-- `f"run-{run:02d}"`. -/
def run_str (n : Nat) : String :=
  "run-" ++ (if n < 10 then "0" else "") ++ Nat.repr n

/-- The run identifiers enumerated by `for run in range(1, run_counts + 1)`. -/
def derived_runs (timepoints : Nat) : List String :=
  (List.range (run_counts timepoints)).map (fun i => run_str (i + 1))

/-- run.py batch mode: process every derived run of a subject/session. -/
def process_subject_session_bids (fs : FS) (func_dir subject session : String)
    (timepoints : Nat) : FS :=
  (derived_runs timepoints).foldl
    (fun acc r => (process_run acc func_dir subject session "rest" r).1) fs

/-! ### Definitions following the spec text, for refinement comparisons -/

def wsSplitCore : List Char → List (List Char)
  | [] => [[]]
  | c :: rest =>
    let r := wsSplitCore rest
    if pyIsSpace c then
      match rest with
      | [] => [] :: r
      | d :: _ => if pyIsSpace d then r else [] :: r
    else
      match r with
      | [] => [[c]]
      | f :: fs => (c :: f) :: fs

/-- Modelled from the spec (claim C2's reading): split a body line into
fields where any run of one or more consecutive space or tab characters
acts as a single field delimiter. -/
def specWsRunSplit (s : String) : List String :=
  (wsSplitCore s.data).map String.mk

def replaceFirstAux (pat rep : List Char) : Nat → List Char → List Char
  | 0, s => s
  | _ + 1, [] => []
  | fuel + 1, c :: rest =>
    if !pat.isEmpty && pat.isPrefixOf (c :: rest) then
      rep ++ List.drop pat.length (c :: rest)
    else
      c :: replaceFirstAux pat rep fuel rest

/-- Modelled from the spec (claim C3's reading): replace only the first
occurrence of `pat` in `s` by `rep`. -/
def specReplaceFirst (s pat rep : String) : String :=
  String.mk (replaceFirstAux pat.data rep.data s.data.length s.data)

/-! ### Concrete inputs used by witnesses and counterexamples -/

/-- A header line holding exactly the 12 canonical source columns. -/
def hdr12 : String :=
  "trans_x_mm\ttrans_y_mm\ttrans_z_mm\trot_x_degrees\trot_y_degrees\trot_z_degrees\ttrans_x_mm_dt\ttrans_y_mm_dt\ttrans_z_mm_dt\trot_x_degrees_dt\trot_y_degrees_dt\trot_z_degrees_dt"

/-- A body line with 12 fields separated by the three-space separator. -/
def row12 : String :=
  "0.1   0.2   0.3   0.4   0.5   0.6   0.7   0.8   0.9   1.0   1.1   1.2"

def c1w_lines : List String := [hdr12, row12]

def c1w_rows : List (List String) :=
  [["0.1", "0.2", "0.3", "0.4", "0.5", "0.6",
    "0.7", "0.8", "0.9", "1.0", "1.1", "1.2"]]

/-- A valid table whose header repeats `trans_x_mm` as a 13th column. -/
def c1cex_lines : List String :=
  [hdr12 ++ "\ttrans_x_mm", row12 ++ "   1.3"]

/-- A file whose header has 2 names but whose body rows have 3 fields. -/
def mismatch_lines : List String := ["a\tb", "1   2   3"]

def c8_input_path : String :=
  "root/sub-01/ses-01/func/sub-01_ses-01_task-rest_run-01_desc-includingFD_motion.tsv"

def c8_output_path : String :=
  "root/sub-01/ses-01/func/sub-01_ses-01_task-rest_run-1_motion.tsv"

def c8_fs : FS :=
  ⟨["root/sub-01/ses-01/func"], [(c8_input_path, [hdr12, row12])]⟩

def c8_out_header : String :=
  "X\tY\tZ\tRotX\tRotY\tRotZ\tXDt\tYDt\tZDt\tRotXDt\tRotYDt\tRotZDt"

/-- A filesystem where the first pattern's input is malformed and the
second pattern's input is valid, with no outputs present. -/
def c7_fs : FS :=
  ⟨[], [(input_path "d" (base_of "sub" "ses" "t") "run-01" pat1, mismatch_lines),
        (input_path "d" (base_of "sub" "ses" "t") "run-01" pat2, [hdr12, row12])]⟩

/-- An empty filesystem. -/
def c4w_fs : FS := ⟨[], []⟩

/-- A filesystem whose single file holds only a header line. -/
def c9w_fs : FS := ⟨[], [(input_path "d" "b" "r" pat1, ["hdr"])]⟩

/-- A header line missing `rot_z_degrees` (11 canonical columns). -/
def hdr11 : String :=
  "trans_x_mm\ttrans_y_mm\ttrans_z_mm\trot_x_degrees\trot_y_degrees\ttrans_x_mm_dt\ttrans_y_mm_dt\ttrans_z_mm_dt\trot_x_degrees_dt\trot_y_degrees_dt\trot_z_degrees_dt"

def row11 : String :=
  "0.1   0.2   0.3   0.4   0.5   0.6   0.7   0.8   0.9   1.0   1.1"

def c5w_lines : List String := [hdr11, row11]

def c5w_rows : List (List String) :=
  [["0.1", "0.2", "0.3", "0.4", "0.5", "0.6",
    "0.7", "0.8", "0.9", "1.0", "1.1"]]

end MotionReg

namespace MotionReg

/-! ### Helper lemmas about the split/join primitives -/

theorem splitSubAux_ne_nil (pat : List Char) (fuel : Nat) (s : List Char) :
    splitSubAux pat fuel s ≠ [] := by
  match fuel, s with
  | 0, s => simp [splitSubAux]
  | _ + 1, [] => simp [splitSubAux]
  | fuel + 1, c :: rest =>
    simp only [splitSubAux]
    split
    · simp
    · split <;> simp

theorem isPrefixOf_length_le :
    ∀ (p s : List Char), p.isPrefixOf s = true → p.length ≤ s.length
  | [], _, _ => Nat.zero_le _
  | _ :: _, [], h => by simp [List.isPrefixOf] at h
  | _ :: as, _ :: bs, h => by
    simp only [List.isPrefixOf, Bool.and_eq_true] at h
    exact Nat.succ_le_succ (isPrefixOf_length_le as bs h.2)

theorem joinSep_cons_cons (sep : List Char) (c : Char) (f : List Char)
    (fs : List (List Char)) :
    joinSep sep ((c :: f) :: fs) = c :: joinSep sep (f :: fs) := by
  cases fs <;> simp [joinSep]

theorem joinSep_nil_cons (sep p : List Char) (ps : List (List Char)) :
    joinSep sep ([] :: p :: ps) = sep ++ joinSep sep (p :: ps) := by
  simp [joinSep]

theorem joinSep_splitSubAux_length_le (pat rep : List Char)
    (hrep : rep.length ≤ pat.length) :
    ∀ (fuel : Nat) (s : List Char),
      (joinSep rep (splitSubAux pat fuel s)).length ≤ s.length := by
  intro fuel
  induction fuel with
  | zero => intro s; simp [splitSubAux, joinSep]
  | succ k ih =>
    intro s
    match s with
    | [] => simp [splitSubAux, joinSep]
    | c :: rest =>
      simp only [splitSubAux]
      by_cases hc : (!pat.isEmpty && pat.isPrefixOf (c :: rest)) = true
      · rw [if_pos hc]
        rw [Bool.and_eq_true] at hc
        have hne : pat ≠ [] := by
          intro h0
          subst h0
          simp at hc
        have hple : pat.length ≤ (c :: rest).length :=
          isPrefixOf_length_le pat (c :: rest) hc.2
        have hpos : 0 < pat.length := List.length_pos.mpr hne
        rcases hp : splitSubAux pat k (List.drop pat.length (c :: rest)) with _ | ⟨p, ps⟩
        · exact absurd hp (splitSubAux_ne_nil pat k _)
        · rw [joinSep_nil_cons]
          have h1 := ih (List.drop pat.length (c :: rest))
          rw [hp] at h1
          rw [List.length_drop] at h1
          rw [List.length_append]
          omega
      · rw [if_neg hc]
        rcases hp : splitSubAux pat k rest with _ | ⟨p, ps⟩
        · exact absurd hp (splitSubAux_ne_nil pat k rest)
        · have h1 := ih rest
          rw [hp] at h1
          simp only [joinSep_cons_cons, List.length_cons]
          exact Nat.succ_le_succ h1

theorem new_run_length_le (run : String) :
    (new_run run).data.length ≤ run.data.length := by
  simpa [new_run, pyReplace] using
    joinSep_splitSubAux_length_le ("run-0" : String).data ("run-" : String).data
      (by decide) run.data.length run.data

theorem splitSubAux_fuel (pat : List Char) :
    ∀ (f1 : Nat) (s : List Char) (f2 : Nat), s.length ≤ f1 → s.length ≤ f2 →
      splitSubAux pat f1 s = splitSubAux pat f2 s := by
  intro f1
  induction f1 with
  | zero =>
    intro s f2 h1 _
    have hs : s = [] := List.eq_nil_of_length_eq_zero (Nat.le_zero.mp h1)
    subst hs
    cases f2 <;> simp [splitSubAux]
  | succ k ih =>
    intro s f2 h1 h2
    match s with
    | [] => cases f2 <;> simp [splitSubAux]
    | c :: rest =>
      cases f2 with
      | zero =>
        simp only [List.length_cons] at h2
        omega
      | succ m =>
        simp only [List.length_cons] at h1 h2
        simp only [splitSubAux]
        by_cases hc : (!pat.isEmpty && pat.isPrefixOf (c :: rest)) = true
        · rw [if_pos hc, if_pos hc]
          congr 1
          rw [Bool.and_eq_true] at hc
          have hne : pat ≠ [] := by
            intro h0
            subst h0
            simp at hc
          have hpos : 0 < pat.length := List.length_pos.mpr hne
          apply ih
          · rw [List.length_drop]; simp only [List.length_cons]; omega
          · rw [List.length_drop]; simp only [List.length_cons]; omega
        · rw [if_neg hc, if_neg hc]
          rw [ih rest m (by omega) (by omega)]

theorem splitSubAux_no_space (fuel : Nat) (s : List Char) (h : ' ' ∉ s) :
    splitSubAux sp3 fuel s = [s] := by
  induction s generalizing fuel with
  | nil => cases fuel <;> simp [splitSubAux]
  | cons c rest ihr =>
    cases fuel with
    | zero => simp [splitSubAux]
    | succ k =>
      have hcne : (' ' == c) = false := by
        rw [beq_eq_false_iff_ne]
        intro h0
        exact h (h0 ▸ List.mem_cons_self c rest)
      have hcond : (!sp3.isEmpty && sp3.isPrefixOf (c :: rest)) = false := by
        simp [sp3, List.isPrefixOf, hcne]
      simp only [splitSubAux, hcond, Bool.false_eq_true, if_false]
      rw [ihr k (fun hm => h (List.mem_cons_of_mem c hm))]

theorem splitSubAux_boundary (f : List Char) (hf : ' ' ∉ f) :
    ∀ (t : List Char) (fuel : Nat), (f ++ sp3 ++ t).length ≤ fuel →
      splitSubAux sp3 fuel (f ++ sp3 ++ t) = f :: splitSubAux sp3 t.length t := by
  induction f with
  | nil =>
    intro t fuel hlen
    cases fuel with
    | zero =>
      simp only [List.nil_append, List.length_append, sp3, List.length_cons,
        List.length_nil] at hlen
      omega
    | succ k =>
      rw [show ([] : List Char) ++ sp3 ++ t = ' ' :: (' ' :: ' ' :: t) from by
        simp [sp3]]
      simp only [splitSubAux]
      rw [if_pos (by simp [sp3, List.isPrefixOf] :
        (!sp3.isEmpty && sp3.isPrefixOf (' ' :: ' ' :: ' ' :: t)) = true)]
      rw [show List.drop sp3.length (' ' :: ' ' :: ' ' :: t) = t from by
        simp [sp3]]
      congr 1
      apply splitSubAux_fuel
      · simp only [List.nil_append, List.length_append, sp3, List.length_cons,
          List.length_nil] at hlen
        omega
      · exact Nat.le_refl _
  | cons c f' ihf =>
    intro t fuel hlen
    have hcne : (' ' == c) = false := by
      rw [beq_eq_false_iff_ne]
      intro h0
      exact hf (h0 ▸ List.mem_cons_self c f')
    cases fuel with
    | zero =>
      simp only [List.cons_append, List.length_cons] at hlen
      omega
    | succ k =>
      simp only [List.cons_append]
      have hcond : (!sp3.isEmpty &&
          sp3.isPrefixOf (c :: (f' ++ sp3 ++ t))) = false := by
        simp [sp3, List.isPrefixOf, hcne]
      simp only [splitSubAux, hcond, Bool.false_eq_true, if_false]
      have hrec := ihf (fun hm => hf (List.mem_cons_of_mem c hm)) t k (by
        simp only [List.cons_append, List.length_cons] at hlen
        omega)
      rw [hrec]

theorem splitSubAux_joinSep (fields : List (List Char)) (hne : fields ≠ [])
    (hsp : ∀ f ∈ fields, ' ' ∉ f) :
    ∀ fuel, (joinSep sp3 fields).length ≤ fuel →
      splitSubAux sp3 fuel (joinSep sp3 fields) = fields := by
  induction fields with
  | nil => exact absurd rfl hne
  | cons f fs ihf =>
    intro fuel hlen
    cases fs with
    | nil =>
      simpa [joinSep] using
        splitSubAux_no_space fuel f (hsp f (List.mem_cons_self f []))
    | cons g gs =>
      rw [show joinSep sp3 (f :: g :: gs) = f ++ sp3 ++ joinSep sp3 (g :: gs) from rfl] at hlen ⊢
      rw [splitSubAux_boundary f (hsp f (List.mem_cons_self f (g :: gs)))
            (joinSep sp3 (g :: gs)) fuel hlen]
      congr 1
      exact ihf (by simp) (fun x hx => hsp x (List.mem_cons_of_mem f hx))
        (joinSep sp3 (g :: gs)).length (Nat.le_refl _)

/-! ### Helper lemmas about the filesystem model -/

theorem lookup_writeFile_ne (fs : FS) (n m : String) (c : List String)
    (h : m ≠ n) :
    List.lookup m (fs.writeFile n c).files = List.lookup m fs.files := by
  simp [FS.writeFile, List.lookup, beq_eq_false_iff_ne.mpr h]

theorem fileExists_writeFile_ne (fs : FS) (n m : String) (c : List String)
    (h : m ≠ n) :
    (fs.writeFile n c).fileExists m = fs.fileExists m := by
  rw [FS.fileExists, FS.fileExists, lookup_writeFile_ne fs n m c h]

theorem readFile_writeFile_ne (fs : FS) (n m : String) (c : List String)
    (h : m ≠ n) :
    (fs.writeFile n c).readFile m = fs.readFile m := by
  rw [FS.readFile, FS.readFile, lookup_writeFile_ne fs n m c h]

theorem fileExists_writeFile_self (fs : FS) (n : String) (c : List String) :
    (fs.writeFile n c).fileExists n = true := by
  simp [FS.fileExists, FS.writeFile, List.lookup]

theorem fileExists_writeFile_mono (fs : FS) (n : String) (c : List String)
    (m : String) (h : fs.fileExists m = true) :
    (fs.writeFile n c).fileExists m = true := by
  by_cases hmn : m = n
  · subst hmn
    exact fileExists_writeFile_self fs m c
  · rw [fileExists_writeFile_ne fs n m c hmn]
    exact h

/-! ### Helper lemmas about the per-pattern step -/

theorem processPattern_input_missing (fs : FS) (dir base run nrun : String)
    (p : FilePattern)
    (h : fs.fileExists (input_path dir base run p) = false) :
    processPattern fs dir base run nrun p = (fs, false) := by
  simp [processPattern, h]

theorem processPattern_output_exists (fs : FS) (dir base run nrun : String)
    (p : FilePattern)
    (h : fs.fileExists (output_path dir base nrun p) = true) :
    processPattern fs dir base run nrun p = (fs, false) := by
  by_cases h1 : fs.fileExists (input_path dir base run p) = false
  · simp [processPattern, h1]
  · have h1t : fs.fileExists (input_path dir base run p) = true := by
      cases hx : fs.fileExists (input_path dir base run p)
      · exact absurd hx h1
      · rfl
    simp [processPattern, h1t, h]

theorem processPattern_error (fs : FS) (dir base run nrun : String)
    (p : FilePattern) (e : PErr)
    (h : process_motion_tsv (fs.readFile (input_path dir base run p)) =
      .error e) :
    processPattern fs dir base run nrun p = (fs, false) := by
  by_cases h1 : fs.fileExists (input_path dir base run p) = false
  · simp [processPattern, h1]
  · have h1t : fs.fileExists (input_path dir base run p) = true := by
      cases hx : fs.fileExists (input_path dir base run p)
      · exact absurd hx h1
      · rfl
    by_cases h2 : fs.fileExists (output_path dir base nrun p) = true
    · exact processPattern_output_exists fs dir base run nrun p h2
    · have h2f : fs.fileExists (output_path dir base nrun p) = false := by
        cases hx : fs.fileExists (output_path dir base nrun p)
        · rfl
        · exact absurd hx h2
      simp [processPattern, h1t, h2f, h]

theorem processPattern_ok (fs : FS) (dir base run nrun : String)
    (p : FilePattern) (t : Table)
    (h1 : fs.fileExists (input_path dir base run p) = true)
    (h2 : fs.fileExists (output_path dir base nrun p) = false)
    (h : process_motion_tsv (fs.readFile (input_path dir base run p)) = .ok t) :
    processPattern fs dir base run nrun p =
      (fs.writeFile (output_path dir base nrun p) (to_csv t), true) := by
  simp [processPattern, h1, h2, h]

theorem processPattern_shape (fs : FS) (dir base run nrun : String)
    (p : FilePattern) :
    processPattern fs dir base run nrun p = (fs, false) ∨
    ∃ c, processPattern fs dir base run nrun p =
      (fs.writeFile (output_path dir base nrun p) c, true) := by
  by_cases h1 : fs.fileExists (input_path dir base run p) = false
  · exact Or.inl (processPattern_input_missing fs dir base run nrun p h1)
  · have h1t : fs.fileExists (input_path dir base run p) = true := by
      cases hx : fs.fileExists (input_path dir base run p)
      · exact absurd hx h1
      · rfl
    by_cases h2 : fs.fileExists (output_path dir base nrun p) = true
    · exact Or.inl (processPattern_output_exists fs dir base run nrun p h2)
    · have h2f : fs.fileExists (output_path dir base nrun p) = false := by
        cases hx : fs.fileExists (output_path dir base nrun p)
        · rfl
        · exact absurd hx h2
      cases hmt : process_motion_tsv (fs.readFile (input_path dir base run p)) with
      | error e =>
        exact Or.inl (processPattern_error fs dir base run nrun p e hmt)
      | ok t =>
        exact Or.inr ⟨to_csv t, processPattern_ok fs dir base run nrun p t h1t h2f hmt⟩

/-- Re-running a pattern step after it has already run once (and after at
most one unrelated write) is a no-op. -/
theorem processPattern_reexec (fs fs1 fs2 : FS) (dir base run nrun : String)
    (p : FilePattern) (bres : Bool)
    (hfirst : processPattern fs dir base run nrun p = (fs1, bres))
    (hext : fs2 = fs1 ∨ ∃ n c, fs2 = fs1.writeFile n c ∧
      n ≠ input_path dir base run p ∧ n ≠ output_path dir base nrun p) :
    processPattern fs2 dir base run nrun p = (fs2, false) := by
  by_cases h1 : fs.fileExists (input_path dir base run p) = false
  · have hf : fs1 = fs := by
      have h0 := (processPattern_input_missing fs dir base run nrun p h1).symm.trans hfirst
      injection h0 with ha _
      exact ha.symm
    have h1' : fs2.fileExists (input_path dir base run p) = false := by
      rcases hext with he | ⟨n, c, he, hni, _⟩
      · rw [he, hf]; exact h1
      · rw [he, hf, fileExists_writeFile_ne fs n _ c (Ne.symm hni)]; exact h1
    exact processPattern_input_missing fs2 dir base run nrun p h1'
  · have h1t : fs.fileExists (input_path dir base run p) = true := by
      cases hx : fs.fileExists (input_path dir base run p)
      · exact absurd hx h1
      · rfl
    by_cases h2 : fs.fileExists (output_path dir base nrun p) = true
    · have hf : fs1 = fs := by
        have h0 := (processPattern_output_exists fs dir base run nrun p h2).symm.trans hfirst
        injection h0 with ha _
        exact ha.symm
      have h2' : fs2.fileExists (output_path dir base nrun p) = true := by
        rcases hext with he | ⟨n, c, he, _, _⟩
        · rw [he, hf]; exact h2
        · rw [he, hf]; exact fileExists_writeFile_mono fs n c _ h2
      exact processPattern_output_exists fs2 dir base run nrun p h2'
    · have h2f : fs.fileExists (output_path dir base nrun p) = false := by
        cases hx : fs.fileExists (output_path dir base nrun p)
        · rfl
        · exact absurd hx h2
      cases hmt : process_motion_tsv (fs.readFile (input_path dir base run p)) with
      | ok t =>
        have hf : fs1 = fs.writeFile (output_path dir base nrun p) (to_csv t) := by
          have h0 := (processPattern_ok fs dir base run nrun p t h1t h2f hmt).symm.trans hfirst
          injection h0 with ha _
          exact ha.symm
        have h2' : fs2.fileExists (output_path dir base nrun p) = true := by
          rcases hext with he | ⟨n, c, he, _, _⟩
          · rw [he, hf]
            exact fileExists_writeFile_self fs _ _
          · rw [he, hf]
            exact fileExists_writeFile_mono _ n c _ (fileExists_writeFile_self fs _ _)
        exact processPattern_output_exists fs2 dir base run nrun p h2'
      | error e =>
        have hf : fs1 = fs := by
          have h0 := (processPattern_error fs dir base run nrun p e hmt).symm.trans hfirst
          injection h0 with ha _
          exact ha.symm
        have hrd : fs2.readFile (input_path dir base run p) =
            fs.readFile (input_path dir base run p) := by
          rcases hext with he | ⟨n, c, he, hni, _⟩
          · rw [he, hf]
          · rw [he, hf, readFile_writeFile_ne fs n _ c (Ne.symm hni)]
        exact processPattern_error fs2 dir base run nrun p e (by rw [hrd]; exact hmt)

/-! ### The two patterns' file names never collide -/

theorem out2_ne_in1 (dir base run : String) :
    output_path dir base (new_run run) pat2 ≠ input_path dir base run pat1 := by
  intro h
  have h' := congrArg String.data h
  simp only [output_path, input_path, pat1, pat2, String.data_append,
    List.append_assoc] at h'
  have h1 := List.append_cancel_left h'
  have h2 := List.append_cancel_left h1
  have h3 := List.append_cancel_left h2
  have h4 := List.append_cancel_left h3
  have hl := congrArg List.length h4
  simp only [List.length_append] at hl
  have hle := new_run_length_le run
  have e1 : (("_motion.tsv" : String)).data.length = 11 := by decide
  have e2 : (("_desc-filteredincludingFD_motion.tsv" : String)).data.length = 36 := by
    decide
  rw [e1, e2] at hl
  omega

theorem out2_ne_out1 (dir base run : String) :
    output_path dir base (new_run run) pat2 ≠
      output_path dir base (new_run run) pat1 := by
  intro h
  have h' := congrArg String.data h
  simp only [output_path, pat1, pat2, String.data_append, List.append_assoc] at h'
  have h1 := List.append_cancel_left h'
  have h2 := List.append_cancel_left h1
  have h3 := List.append_cancel_left h2
  have h4 := List.append_cancel_left h3
  have h5 := List.append_cancel_left h4
  exact absurd h5 (by decide)

/-! ### Helper lemmas about column selection by label -/

theorem countP_filter_enumFrom (l : List String) (c : String) :
    ∀ n, ((List.enumFrom n l).filter (fun p => p.2 == c)).length =
      (l.filter (fun x => x == c)).length := by
  induction l with
  | nil => intro n; simp
  | cons x xs ih =>
    intro n
    simp only [List.enumFrom, List.filter_cons]
    cases hxc : (x == c)
    · simpa [hxc] using ih (n + 1)
    · simpa [hxc] using ih (n + 1)

theorem selIdx_length (hs : List String) (c : String) :
    (selIdx hs c).length = hs.count c := by
  have h1 : hs.count c = (hs.filter (fun x => x == c)).length := by
    rw [show hs.count c = List.countP (fun x => x == c) hs from rfl]
    exact List.countP_eq_length_filter (fun x => x == c) hs
  rw [h1]
  simp only [selIdx, List.length_map, List.enum]
  exact countP_filter_enumFrom hs c 0

theorem flatten_map_singletons {α β : Type} (L : List α) (g : α → List β)
    (f : α → β) (h : ∀ x ∈ L, g x = [f x]) : (L.map g).flatten = L.map f := by
  induction L with
  | nil => simp
  | cons a as ih =>
    simp only [List.map_cons, List.flatten_cons, h a (List.mem_cons_self a as),
      ih (fun x hx => h x (List.mem_cons_of_mem a hx)), List.singleton_append]

theorem flatten_map_length_one {α β : Type} (L : List α) (g : α → List β)
    (h : ∀ x ∈ L, (g x).length = 1) : ((L.map g).flatten).length = L.length := by
  induction L with
  | nil => simp
  | cons a as ih =>
    simp only [List.map_cons, List.flatten_cons, List.length_append,
      List.length_cons, h a (List.mem_cons_self a as),
      ih (fun x hx => h x (List.mem_cons_of_mem a hx))]
    omega

theorem selHeader_count_one (hs : List String)
    (h : ∀ c ∈ required_cols, hs.count c = 1) :
    selHeader hs = short_names := by
  have h1 : ∀ c ∈ required_cols,
      (selIdx hs c).map (fun _ => renameCol c) = [renameCol c] := by
    intro c hc
    have hl : (selIdx hs c).length = 1 := by
      rw [selIdx_length]; exact h c hc
    obtain ⟨i, hi⟩ := List.length_eq_one.mp hl
    rw [hi]
    rfl
  exact (flatten_map_singletons required_cols _ renameCol h1).trans (by decide)

theorem selRow_length_count_one (hs : List String)
    (h : ∀ c ∈ required_cols, hs.count c = 1) (row : List String) :
    (selRow hs row).length = 12 := by
  have h1 : ∀ c ∈ required_cols, (selIdx hs c).length = 1 := fun c hc => by
    rw [selIdx_length]; exact h c hc
  unfold selRow
  rw [List.length_map, flatten_map_length_one required_cols (selIdx hs) h1]
  decide

theorem contains_of_count_one (l : List String) (c : String)
    (h : l.count c = 1) : l.contains c = true := by
  have hmem : c ∈ l := List.count_pos_iff.mp (by omega)
  exact List.elem_iff.mpr hmem

/-! ### Classification of the errors a single file can produce -/

theorem read_csv_body_error (bl : List String) (e : PErr)
    (h : read_csv_body bl = .error e) :
    e = .emptyData ∨ e = .generic parser_error_msg := by
  cases hbr : body_rows bl with
  | nil =>
    simp only [read_csv_body, hbr] at h
    exact Or.inl (by injection h with h1; exact h1.symm)
  | cons r0 rest =>
    simp only [read_csv_body, hbr] at h
    split at h
    · exact Or.inr (by injection h with h1; exact h1.symm)
    · exact absurd h (by simp)

theorem process_motion_tsv_error_cases (lines : List String) (e : PErr)
    (h : process_motion_tsv lines = .error e) :
    e = .emptyData ∨ e = .generic parser_error_msg ∨
      e = .generic length_mismatch_msg ∨ ∃ m a, e = .missingColumns m a := by
  cases hrb : read_csv_body lines.tail with
  | error eb =>
    simp only [process_motion_tsv, hrb] at h
    have heb : eb = e := Except.error.inj h
    rcases read_csv_body_error lines.tail eb hrb with h0 | h0
    · exact Or.inl (heb ▸ h0)
    · exact Or.inr (Or.inl (heb ▸ h0))
  | ok pr =>
    rcases pr with ⟨ncols, rows⟩
    simp only [process_motion_tsv, hrb] at h
    split at h
    · exact Or.inr (Or.inr (Or.inl (by injection h with h1; exact h1.symm)))
    · split at h
      · exact absurd h (by simp)
      · refine Or.inr (Or.inr (Or.inr ⟨missing_cols_of lines, detected_headers lines, ?_⟩))
        injection h with h1
        exact h1.symm

/-! ### The claims -/

/-- Claim C1 (amended): for every input table whose parsed header holds
each of the 12 canonical source-column names exactly once (in any order,
possibly with extra columns) and whose body parses successfully with the
header's column count, `process_motion_tsv` succeeds and the written
output table contains exactly those 12 columns, renamed per the Column
Mapping, in the Column Mapping's fixed key order, with the same number of
data rows as the parsed input body.  (The original claim, which allows a
canonical name to occur more than once in the header, fails: see the
counterexample.) -/
theorem claim_C1 (lines : List String) (ncols : Nat) (rows : List (List String))
    (hread : read_csv_body lines.tail = .ok (ncols, rows))
    (hcount : ∀ c ∈ required_cols, (detected_headers lines).count c = 1)
    (hlen : (detected_headers lines).length = ncols) :
    process_motion_tsv lines =
      .ok ⟨short_names, rows.map (selRow (detected_headers lines))⟩ ∧
    short_names = ["X", "Y", "Z", "RotX", "RotY", "RotZ",
      "XDt", "YDt", "ZDt", "RotXDt", "RotYDt", "RotZDt"] ∧
    (rows.map (selRow (detected_headers lines))).length = rows.length ∧
    (∀ r ∈ rows.map (selRow (detected_headers lines)), r.length = 12) ∧
    (to_csv ⟨short_names, rows.map (selRow (detected_headers lines))⟩).length
      = rows.length + 1 := by
  have hmiss : (missing_cols_of lines).isEmpty = true := by
    rw [List.isEmpty_iff, missing_cols_of, List.filter_eq_nil_iff]
    intro c hc
    rw [contains_of_count_one _ _ (hcount c hc)]
    simp
  refine ⟨?_, by decide, by rw [List.length_map], ?_, ?_⟩
  · simp only [process_motion_tsv, hread]
    rw [if_neg (by simp [hlen]), if_pos hmiss,
      selHeader_count_one (detected_headers lines) hcount]
  · intro r hr
    obtain ⟨r0, hr0, hrr⟩ := List.mem_map.mp hr
    rw [← hrr]
    exact selRow_length_count_one (detected_headers lines) hcount r0
  · simp [to_csv, List.length_map]

/-- Witness for claim C1 at a concrete valid 12-column input. -/
theorem claim_C1_witness :
    (read_csv_body c1w_lines.tail = .ok (12, c1w_rows)) ∧
    (∀ c ∈ required_cols, (detected_headers c1w_lines).count c = 1) ∧
    ((detected_headers c1w_lines).length = 12) ∧
    process_motion_tsv c1w_lines =
      .ok ⟨short_names, c1w_rows.map (selRow (detected_headers c1w_lines))⟩ :=
  ⟨by decide, by decide, by decide,
    (claim_C1 c1w_lines 12 c1w_rows (by decide) (by decide) (by decide)).1⟩

/-- Counterexample to claim C1 as stated: a header that contains all 12
canonical names but repeats `trans_x_mm` as a 13th column is accepted, and
the output has 13 columns (`X` twice), not exactly the 12 renamed ones. -/
theorem claim_C1_counterexample :
    (∀ c ∈ required_cols, c ∈ detected_headers c1cex_lines) ∧
    (process_motion_tsv c1cex_lines).toOption.map Table.header =
      some ("X" :: short_names) ∧
    ("X" :: short_names).length = 13 ∧
    ("X" :: short_names) ≠ short_names := by decide

/-- Claim C2 (amended): a body line is first stripped of leading and
trailing whitespace and then split on each leftmost non-overlapping
occurrence of the exact three-space substring; a single space or a tab is
not a delimiter, and longer space runs are not collapsed (six spaces give
an empty field).  The general conjunct shows the split is the exact
inverse of joining fields with the three-space separator. -/
theorem claim_C2 :
    (∀ fields : List String, fields ≠ [] →
      (∀ f ∈ fields, ' ' ∉ f.data) →
      pySplitOn (String.mk (joinSep sp3 (fields.map String.data))) "   " = fields) ∧
    parseLine "a b" = ["a b"] ∧
    parseLine "a\tb" = ["a\tb"] ∧
    parseLine "  a   b " = ["a", "b"] ∧
    parseLine "a      b" = ["a", "", "b"] ∧
    parseLine "a    b" = ["a", " b"] := by
  refine ⟨?_, by decide, by decide, by decide, by decide, by decide⟩
  intro fields hne hsp
  unfold pySplitOn
  rw [show (("   " : String)).data = sp3 from by decide]
  rw [show (String.mk (joinSep sp3 (fields.map String.data))).data
      = joinSep sp3 (fields.map String.data) from rfl]
  rw [splitSubAux_joinSep (fields.map String.data)
      (by simpa using hne)
      (by
        intro l hl
        obtain ⟨f, hf, hfl⟩ := List.mem_map.mp hl
        rw [← hfl]
        exact hsp f hf)
      _ (Nat.le_refl _)]
  rw [List.map_map,
    show (fun (l : List Char) => String.mk l) ∘ String.data = id from
      funext fun f => rfl,
    List.map_id]

/-- Witness for claim C2's general conjunct at concrete fields. -/
theorem claim_C2_witness :
    ((["ab", "c"] : List String) ≠ [] ∧
      ∀ f ∈ (["ab", "c"] : List String), ' ' ∉ f.data) ∧
    pySplitOn (String.mk (joinSep sp3 ((["ab", "c"] : List String).map String.data)))
      "   " = ["ab", "c"] :=
  ⟨⟨by decide, by decide⟩, claim_C2.1 ["ab", "c"] (by decide) (by decide)⟩

/-- Counterexample to claim C2 as stated: a single space (or a tab) does
not act as a field delimiter, so the body is not whitespace-run
delimited. -/
theorem claim_C2_counterexample :
    parseLine "a b" ≠ specWsRunSplit "a b" ∧
    parseLine "a\tb" ≠ specWsRunSplit "a\tb" ∧
    parseLine "a b" = ["a b"] ∧
    specWsRunSplit "a b" = ["a", "b"] := by decide

/-- Claim C3 (amended): the run de-padding replaces every leftmost
non-overlapping occurrence of the literal substring `run-0` with `run-`
(Python `str.replace` replaces all occurrences, not only the first); the
claimed concrete examples all hold, and the replacement never lengthens
the string. -/
theorem claim_C3 :
    new_run "run-01" = "run-1" ∧ new_run "run-02" = "run-2" ∧
    new_run "run-10" = "run-10" ∧ new_run "run-00" = "run-0" ∧
    new_run "run-0run-0" = "run-run-" ∧
    ∀ s : String, (new_run s).data.length ≤ s.data.length :=
  ⟨by decide, by decide, by decide, by decide, by decide, new_run_length_le⟩

/-- Counterexample to claim C3 as stated: on `run-0run-0` the code
replaces both occurrences, while a first-occurrence-only replace would
leave the second occurrence intact. -/
theorem claim_C3_counterexample :
    new_run "run-0run-0" = "run-run-" ∧
    specReplaceFirst "run-0run-0" "run-0" "run-" = "run-run-0" ∧
    new_run "run-0run-0" ≠ specReplaceFirst "run-0run-0" "run-0" "run-" := by
  decide

/-- Claim C4: each per-pattern step is a no-op when its input file does
not exist or its output file already exists, and re-running the whole
per-run pipeline on its own result writes nothing and changes no file:
the second pass returns the same filesystem and a zero success count. -/
theorem claim_C4 (fs : FS) (dir subject session task run : String) :
    (∀ p ∈ file_patterns,
      fs.fileExists (input_path dir (base_of subject session task) run p) = false →
      processPattern fs dir (base_of subject session task) run (new_run run) p
        = (fs, false)) ∧
    (∀ p ∈ file_patterns,
      fs.fileExists (output_path dir (base_of subject session task) (new_run run) p)
        = true →
      processPattern fs dir (base_of subject session task) run (new_run run) p
        = (fs, false)) ∧
    process_run (process_run fs dir subject session task run).1
        dir subject session task run =
      ((process_run fs dir subject session task run).1, 0) := by
  refine ⟨fun p _ h => processPattern_input_missing fs dir _ run (new_run run) p h,
          fun p _ h => processPattern_output_exists fs dir _ run (new_run run) p h, ?_⟩
  rcases hpp1 : processPattern fs dir (base_of subject session task) run
    (new_run run) pat1 with ⟨fs1, bb1⟩
  rcases hpp2 : processPattern fs1 dir (base_of subject session task) run
    (new_run run) pat2 with ⟨fs2, bb2⟩
  have hfs : (process_run fs dir subject session task run).1 = fs2 := by
    simp [process_run, hpp1, hpp2]
  rw [hfs]
  have hext1 : fs2 = fs1 ∨ ∃ n c, fs2 = fs1.writeFile n c ∧
      n ≠ input_path dir (base_of subject session task) run pat1 ∧
      n ≠ output_path dir (base_of subject session task) (new_run run) pat1 := by
    rcases processPattern_shape fs1 dir (base_of subject session task) run
      (new_run run) pat2 with hsh | ⟨c, hsh⟩
    · rw [hpp2] at hsh
      injection hsh with ha _
      exact Or.inl ha
    · rw [hpp2] at hsh
      injection hsh with ha _
      exact Or.inr ⟨output_path dir (base_of subject session task) (new_run run) pat2,
        c, ha, out2_ne_in1 dir (base_of subject session task) run,
        out2_ne_out1 dir (base_of subject session task) run⟩
  have hre1 : processPattern fs2 dir (base_of subject session task) run
      (new_run run) pat1 = (fs2, false) :=
    processPattern_reexec fs fs1 fs2 dir _ run (new_run run) pat1 bb1 hpp1 hext1
  have hre2 : processPattern fs2 dir (base_of subject session task) run
      (new_run run) pat2 = (fs2, false) :=
    processPattern_reexec fs1 fs2 fs2 dir _ run (new_run run) pat2 bb2 hpp2
      (Or.inl rfl)
  simp [process_run, hre1, hre2]

/-- Witness for claim C4 at a concrete filesystem. -/
theorem claim_C4_witness :
    (c4w_fs.fileExists (input_path "d" (base_of "sub" "ses" "t") "run-01" pat1)
      = false) ∧
    (pat1 ∈ file_patterns) ∧
    processPattern c4w_fs "d" (base_of "sub" "ses" "t") "run-01"
      (new_run "run-01") pat1 = (c4w_fs, false) ∧
    process_run (process_run c4w_fs "d" "sub" "ses" "t" "run-01").1
        "d" "sub" "ses" "t" "run-01" =
      ((process_run c4w_fs "d" "sub" "ses" "t" "run-01").1, 0) := by
  refine ⟨by decide, by decide, ?_, ?_⟩
  · exact (claim_C4 c4w_fs "d" "sub" "ses" "t" "run-01").1 pat1 (by decide) (by decide)
  · exact (claim_C4 c4w_fs "d" "sub" "ses" "t" "run-01").2.2

/-- Claim C5: when the body parses and the header assignment succeeds but
some canonical source column is absent from the parsed header,
`process_motion_tsv` fails with a schema-mismatch error carrying exactly
the missing names and the full available header, and no output file is
created. -/
theorem claim_C5 (lines : List String) (ncols : Nat) (rows : List (List String))
    (hread : read_csv_body lines.tail = .ok (ncols, rows))
    (hlen : (detected_headers lines).length = ncols)
    (hmiss : ∃ c ∈ required_cols, (detected_headers lines).contains c = false) :
    process_motion_tsv lines =
      .error (.missingColumns (missing_cols_of lines) (detected_headers lines)) ∧
    missing_cols_of lines ≠ [] ∧
    (∀ c, c ∈ missing_cols_of lines ↔
      c ∈ required_cols ∧ (detected_headers lines).contains c = false) ∧
    (∀ (fs : FS) (dir base run nrun : String) (p : FilePattern),
      fs.readFile (input_path dir base run p) = lines →
      processPattern fs dir base run nrun p = (fs, false)) := by
  have hchar : ∀ c, c ∈ missing_cols_of lines ↔
      c ∈ required_cols ∧ (detected_headers lines).contains c = false := by
    intro c
    simp [missing_cols_of, List.mem_filter, Bool.not_eq_true']
  have hne2 : missing_cols_of lines ≠ [] := by
    obtain ⟨c, hc, hcf⟩ := hmiss
    intro h0
    have hcmem : c ∈ missing_cols_of lines := (hchar c).mpr ⟨hc, hcf⟩
    rw [h0] at hcmem
    exact absurd hcmem (List.not_mem_nil c)
  have hp : process_motion_tsv lines =
      .error (.missingColumns (missing_cols_of lines) (detected_headers lines)) := by
    simp only [process_motion_tsv, hread]
    rw [if_neg (by simp [hlen]),
      if_neg (show ¬((missing_cols_of lines).isEmpty = true) from
        fun habs => hne2 (List.isEmpty_iff.mp habs))]
  exact ⟨hp, hne2, hchar, fun fs dir base run nrun p hrf =>
    processPattern_error fs dir base run nrun p _ (by rw [hrf]; exact hp)⟩

/-- Witness for claim C5: a header missing only `rot_z_degrees`. -/
theorem claim_C5_witness :
    (read_csv_body c5w_lines.tail = .ok (11, c5w_rows)) ∧
    ((detected_headers c5w_lines).length = 11) ∧
    ((detected_headers c5w_lines).contains "rot_z_degrees" = false) ∧
    process_motion_tsv c5w_lines =
      .error (.missingColumns ["rot_z_degrees"] (detected_headers c5w_lines)) := by
  refine ⟨by decide, by decide, by decide, ?_⟩
  have h := (claim_C5 c5w_lines 11 c5w_rows (by decide) (by decide)
    ⟨"rot_z_degrees", by decide, by decide⟩).1
  rw [show missing_cols_of c5w_lines = ["rot_z_degrees"] from by decide] at h
  exact h

/-- Claim C6: in derived (batch) mode the run count is the dtseries
first-axis sample count floor-divided by the constant 383, and the run
identifiers are exactly `run-01 .. run-{run_count:02d}`; 766 samples give
exactly `run-01` and `run-02`, and 382 samples give no runs. -/
theorem claim_C6 (n : Nat) :
    (derived_runs n).length = run_counts n ∧
    run_counts n = n / 383 ∧
    derived_runs 766 = ["run-01", "run-02"] ∧
    derived_runs 382 = [] ∧
    ∀ i, i < run_counts n → (derived_runs n)[i]? = some (run_str (i + 1)) := by
  refine ⟨by simp [derived_runs], rfl, by decide, by decide, ?_⟩
  intro i hi
  simp [derived_runs, List.getElem?_range hi]

/-- Witness for claim C6 at 766 samples. -/
theorem claim_C6_witness :
    (1 < run_counts 766) ∧ (derived_runs 766)[1]? = some (run_str 2) :=
  ⟨by decide, (claim_C6 766).2.2.2.2 1 (by decide)⟩

/-- Claim C7: every failure of `process_motion_tsv` is one of the
enumerated errors or a generic error carrying a message, and a failure of
the first pattern's file never aborts the run: the second pattern is
still processed on the unchanged filesystem and the success count simply
omits the failed file. -/
theorem claim_C7 :
    (∀ lines e, process_motion_tsv lines = .error e →
      e = .emptyData ∨ e = .generic parser_error_msg ∨
      e = .generic length_mismatch_msg ∨ ∃ m a, e = .missingColumns m a) ∧
    (∀ (fs : FS) (dir subject session task run : String) (e : PErr),
      process_motion_tsv (fs.readFile
        (input_path dir (base_of subject session task) run pat1)) = .error e →
      process_run fs dir subject session task run =
        ((processPattern fs dir (base_of subject session task) run
            (new_run run) pat2).1,
          cond (processPattern fs dir (base_of subject session task) run
            (new_run run) pat2).2 1 0)) := by
  refine ⟨process_motion_tsv_error_cases, ?_⟩
  intro fs dir subject session task run e he
  have h1 : processPattern fs dir (base_of subject session task) run
      (new_run run) pat1 = (fs, false) :=
    processPattern_error fs dir _ run (new_run run) pat1 e he
  simp [process_run, h1]

/-- Witness for claim C7: a malformed first-pattern input next to a valid
second-pattern input. -/
theorem claim_C7_witness :
    (process_motion_tsv (c7_fs.readFile
      (input_path "d" (base_of "sub" "ses" "t") "run-01" pat1)) =
        .error (.generic length_mismatch_msg)) ∧
    process_run c7_fs "d" "sub" "ses" "t" "run-01" =
      ((processPattern c7_fs "d" (base_of "sub" "ses" "t") "run-01"
          (new_run "run-01") pat2).1,
        cond (processPattern c7_fs "d" (base_of "sub" "ses" "t") "run-01"
          (new_run "run-01") pat2).2 1 0) :=
  ⟨by decide, claim_C7.2 c7_fs "d" "sub" "ses" "t" "run-01"
    (.generic length_mismatch_msg) (by decide)⟩

/-- Claim C8: the end-to-end scenario: processing `sub-01`, `ses-01`,
task `rest`, run `run-01` over a directory holding the includingFD input
creates `sub-01_ses-01_task-rest_run-1_motion.tsv` whose header line
names the columns `X..RotZDt` in the Column Mapping's order. -/
theorem claim_C8 :
    (process_subject_session c8_fs "root" "sub-01" "ses-01" "rest" "run-01").1.readFile
        c8_output_path =
      [c8_out_header,
       "0.1\t0.2\t0.3\t0.4\t0.5\t0.6\t0.7\t0.8\t0.9\t1.0\t1.1\t1.2"] ∧
    pySplitOn c8_out_header "\t" = short_names ∧
    c8_output_path =
      "root/sub-01/ses-01/func/sub-01_ses-01_task-rest_run-1_motion.tsv" ∧
    (process_subject_session c8_fs "root" "sub-01" "ses-01" "rest" "run-01").2 = 1 := by
  refine ⟨by decide, by decide, by decide, by decide⟩

/-- Claim C9: a file holding only a header line (no body lines) fails
through the empty-data branch, and no output file is created. -/
theorem claim_C9 (h : String) :
    process_motion_tsv [h] = .error .emptyData ∧
    ∀ (fs : FS) (dir base run nrun : String) (p : FilePattern),
      fs.readFile (input_path dir base run p) = [h] →
      processPattern fs dir base run nrun p = (fs, false) := by
  have hp : process_motion_tsv [h] = .error .emptyData := rfl
  exact ⟨hp, fun fs dir base run nrun p hrf =>
    processPattern_error fs dir base run nrun p _ (by rw [hrf]; exact hp)⟩

/-- Witness for claim C9 at a concrete header-only file. -/
theorem claim_C9_witness :
    (c9w_fs.readFile (input_path "d" "b" "r" pat1) = ["hdr"]) ∧
    processPattern c9w_fs "d" "b" "r" "nr" pat1 = (c9w_fs, false) :=
  ⟨by decide, (claim_C9 "hdr").2 c9w_fs "d" "b" "r" "nr" pat1 (by decide)⟩

/-- Claim C10: when the body parses but its column count differs from the
tab-split header's name count, the header assignment fails, the error is
caught by the generic handler, and no output file is created. -/
theorem claim_C10 (lines : List String) (ncols : Nat) (rows : List (List String))
    (hread : read_csv_body lines.tail = .ok (ncols, rows))
    (hne : (detected_headers lines).length ≠ ncols) :
    process_motion_tsv lines = .error (.generic length_mismatch_msg) ∧
    ∀ (fs : FS) (dir base run nrun : String) (p : FilePattern),
      fs.readFile (input_path dir base run p) = lines →
      processPattern fs dir base run nrun p = (fs, false) := by
  have hp : process_motion_tsv lines = .error (.generic length_mismatch_msg) := by
    simp only [process_motion_tsv, hread]
    rw [if_pos hne]
  exact ⟨hp, fun fs dir base run nrun p hrf =>
    processPattern_error fs dir base run nrun p _ (by rw [hrf]; exact hp)⟩

/-- Witness for claim C10: a 2-name header over 3-field body rows. -/
theorem claim_C10_witness :
    (read_csv_body mismatch_lines.tail = .ok (3, [["1", "2", "3"]])) ∧
    ((detected_headers mismatch_lines).length ≠ 3) ∧
    process_motion_tsv mismatch_lines = .error (.generic length_mismatch_msg) :=
  ⟨by decide, by decide,
    (claim_C10 mismatch_lines 3 [["1", "2", "3"]] (by decide) (by decide)).1⟩

end MotionReg
